import Mathlib

/-!
Shallow embedding of the CodeShare collaboration backend
(`src/server.js` and the enhanced variant `src/unnamed/part_001`).

Room keys and other nullable JavaScript strings are modelled as
`Option String` (`none` is `null`/`undefined`).  The MongoDB-backed
document store is a list of room documents; `findOne` returns the first
document matching a key, `findOneAndUpdate` rewrites the first matching
document, `$push` appends, `$pull` filters, and the positional `$`
operator rewrites the first matching array element.  The socket layer is
modelled by an explicit list of emitted actions per handler invocation,
with `deliverTo` giving the recipient set of each action
(`socket.emit` reaches the sender, `socket.to(room).emit` reaches the
members of the room other than the sender, `io.to(room).emit` reaches
all members).
-/

namespace CodeShare

/-- A nullable JavaScript string: `none` models `null`/`undefined`. -/
abbrev JStr := Option String

/-- JavaScript truthiness for nullable strings (`null`, `undefined`, `""` are falsy). -/
def truthy : JStr → Bool
  | none => false
  | some s => s != ""

/-- A file element of a room document (schema, src/unnamed/part_001 lines 43-48). -/
structure File where
  id : String
  name : String
  content : JStr
  language : JStr
deriving DecidableEq, Repr

/-- A note element of a room document (schema, src/unnamed/part_001 lines 49-53). -/
structure Note where
  id : String
  name : String
  content : JStr
deriving DecidableEq, Repr

/-- A persisted room document (schema, src/unnamed/part_001 lines 36-65).
Timestamps are integer milliseconds. -/
structure RoomDoc where
  roomId : JStr
  files : List File
  notes : List Note
  activeFileId : JStr
  activeNoteId : JStr
  createdAt : Int
  lastActivity : Int
deriving DecidableEq, Repr

/-- The payload of a `file-update` message: `\x7bfileId, content?, language?\x7d`.
An absent `content`/`language` property is `none`. -/
structure FileUpdateMsg where
  fileId : String
  content : JStr
  language : JStr
deriving DecidableEq, Repr

/-- The payload of a `file-rename` message. -/
structure FileRenameMsg where
  fileId : String
  name : String
deriving DecidableEq, Repr

/-- The payload of a `note-update` message. -/
structure NoteUpdateMsg where
  noteId : String
  content : JStr
deriving DecidableEq, Repr

/-- The payload of a `note-rename` message. -/
structure NoteRenameMsg where
  noteId : String
  name : String
deriving DecidableEq, Repr

/-- Payloads carried by emitted socket events. -/
inductive Payload where
  | empty
  | str (s : String)
  | jstr (s : JStr)
  | ids (l : List String)
  | syncData (files : List File) (notes : List Note) (activeFileId activeNoteId : JStr)
  | fileData (f : File)
  | noteData (n : Note)
  | updData (d : FileUpdateMsg)
  | renData (d : FileRenameMsg)
  | noteUpdData (d : NoteUpdateMsg)
  | noteRenData (d : NoteRenameMsg)
  | errMsg (m : String)
deriving DecidableEq, Repr

/-- An outbound emission performed by a handler.
`toSender` is `socket.emit`, `toRoomOthers` is `socket.to(room).emit`
(excludes the sender), `toRoomAll` is `io.to(room).emit`. -/
inductive Action where
  | toSender (ev : String) (p : Payload)
  | toRoomOthers (room : JStr) (ev : String) (p : Payload)
  | toRoomAll (room : JStr) (ev : String) (p : Payload)
deriving DecidableEq, Repr

/-- The in-memory membership map `roomUsers : Map<roomId, Set<socketId>>`
(src/unnamed/part_001 line 76).  Insertion order of both the map and the
sets is preserved, as for JavaScript `Map`/`Set`. -/
abbrev Registry := List (JStr × List String)

/-- `roomUsers.get(k)`: the value of the first (only) entry with the key. -/
def Registry.get : Registry → JStr → Option (List String)
  | [], _ => none
  | p :: rest, k => if p.1 == k then some p.2 else Registry.get rest k

/-- `roomUsers.has(k)`. -/
def Registry.hasKey (reg : Registry) (k : JStr) : Bool :=
  (Registry.get reg k).isSome

/-- `roomUsers.set(k, v)`: overwrite in place if the key exists, else append. -/
def Registry.set : Registry → JStr → List String → Registry
  | [], k, v => [(k, v)]
  | p :: rest, k, v =>
    if p.1 == k then (k, v) :: rest else p :: Registry.set rest k v

/-- `roomUsers.delete(k)`. -/
def Registry.del : Registry → JStr → Registry
  | [], _ => []
  | p :: rest, k =>
    if p.1 == k then Registry.del rest k else p :: Registry.del rest k

/-- `Set.add` on an insertion-ordered set. -/
def setAdd (s : List String) (x : String) : List String :=
  if s.contains x then s else s ++ [x]

/-- `Set.delete` on an insertion-ordered set. -/
def setDelete (s : List String) (x : String) : List String :=
  s.filter (fun y => y != x)

/-- The member list of a room (`Array.from(roomUsers.get(k))`, empty when absent). -/
def membersOf (reg : Registry) (k : JStr) : List String :=
  (Registry.get reg k).getD []

/-- The member count of a room (`roomUsers.get(k).size`, 0 when absent). -/
def memberCount (reg : Registry) (k : JStr) : Nat :=
  (membersOf reg k).length

/-- The persisted document store, keyed by `roomId`. -/
abbrev Store := List RoomDoc

/-- `Room.findOne(\x7broomId: k\x7d)`: first document whose `roomId` equals `k`. -/
def Store.findOne : Store → JStr → Option RoomDoc
  | [], _ => none
  | d :: rest, k => if d.roomId == k then some d else Store.findOne rest k

/-- `Room.findOneAndUpdate(filter, update)`: rewrite the first document
satisfying the filter, leaving every other document unchanged. -/
def mongoUpdateOne (s : Store) (pred : RoomDoc → Bool) (g : RoomDoc → RoomDoc) : Store :=
  match s with
  | [] => []
  | d :: rest => if pred d then g d :: rest else d :: mongoUpdateOne rest pred g

/-- The MongoDB positional `$` operator on `files`: rewrite the first
array element whose `id` matches. -/
def updateFirstFile (files : List File) (fid : String) (g : File → File) : List File :=
  match files with
  | [] => []
  | f :: rest => if f.id == fid then g f :: rest else f :: updateFirstFile rest fid g

/-- The first file with a given id (the element the positional `$`
operator targets). -/
def findFile : List File → String → Option File
  | [], _ => none
  | f :: rest, fid => if f.id == fid then some f else findFile rest fid

/-- The MongoDB positional `$` operator on `notes`. -/
def updateFirstNote (notes : List Note) (nid : String) (g : Note → Note) : List Note :=
  match notes with
  | [] => []
  | n :: rest => if n.id == nid then g n :: rest else n :: updateFirstNote rest nid g

/-- Recipients of an emitted action, for a given sender and membership map. -/
def deliverTo (reg : Registry) (sender : String) : Action → List String
  | Action.toSender _ _ => [sender]
  | Action.toRoomOthers room _ _ => (membersOf reg room).filter (fun m => m != sender)
  | Action.toRoomAll room _ _ => membersOf reg room

/-- `lastActivity` of the document stored at a key, if any. -/
def lastActivityOf (s : Store) (k : JStr) : Option Int :=
  (Store.findOne s k).map (fun d => d.lastActivity)

/-- True when the action is an emission of the named event to the sender. -/
def isSenderEmit (ev : String) : Action → Bool
  | Action.toSender e _ => e == ev
  | Action.toRoomOthers _ _ _ => false
  | Action.toRoomAll _ _ _ => false

/-- True when the action list contains a `room-full` emission to the sender. -/
def emitsRoomFull (acts : List Action) : Bool :=
  acts.any (isSenderEmit "room-full")

/-- True when the action list contains an `error` emission to the sender. -/
def emitsError (acts : List Action) : Bool :=
  acts.any (isSenderEmit "error")


namespace Enhanced

/-!
Handlers of the enhanced server variant, `src/unnamed/part_001`
(authoritative per the design: multi-file/multi-note with `lastActivity`
and the last-item protection rule).  Each handler takes the relevant
pieces of server state plus `now` (the value of `new Date()` during the
handler) and returns the updated state together with the list of emitted
actions, in emission order.
-/

/-- The default seed file created for a new room (src/unnamed/part_001
lines 111-116). -/
def defaultFile : CodeShare.File :=
  { id := "default", name := "main.js",
    content := some "// Welcome to CodeShare.online!\n// Start typing your code here...\n\nconsole.log(\"Hello, World!\");",
    language := some "javascript" }

/-- The default seed note created for a new room (src/unnamed/part_001
lines 117-121). -/
def defaultNote : CodeShare.Note :=
  { id := "default", name := "Notes",
    content := some "# Notes\n\nStart writing your notes here..." }

/-- The document `Room.create` builds for an unseen room key
(src/unnamed/part_001 lines 109-124; `createdAt` and `lastActivity`
default to the creation time). -/
def seedDoc (rk : JStr) (now : Int) : RoomDoc :=
  { roomId := rk, files := [defaultFile], notes := [defaultNote],
    activeFileId := some "default", activeNoteId := some "default",
    createdAt := now, lastActivity := now }

/-- The `x || 'default'` fallback used when building the sync payload
(src/unnamed/part_001 lines 137-138). -/
def orDefault (v : JStr) : JStr :=
  if truthy v then v else some "default"

/-- Result of the join handler: updated membership map and store, the
connection's `currentRoom` afterwards, and the emitted actions. -/
structure JoinOut where
  registry : Registry
  store : Store
  currentRoom : JStr
  actions : List Action
deriving DecidableEq, Repr

/-- The `join-room` handler (src/unnamed/part_001 lines 83-149): reject
with `room-full` when the room already has two members; otherwise set
`currentRoom`, add the socket to the membership set, emit `user-id`,
get-or-create the room document (updating `lastActivity` when it
exists), emit the `sync` snapshot to the joiner, and broadcast
`users-update` to the whole room. -/
def joinRoom (reg : Registry) (store : Store) (currentRoom : JStr)
    (socketId : String) (roomId : JStr) (now : Int) : JoinOut :=
  if Registry.hasKey reg roomId && decide (2 ≤ memberCount reg roomId) then
    { registry := reg, store := store, currentRoom := currentRoom,
      actions := [Action.toSender "room-full" Payload.empty] }
  else
    let reg1 := if Registry.hasKey reg roomId then reg else Registry.set reg roomId []
    let reg2 := Registry.set reg1 roomId (setAdd (membersOf reg1 roomId) socketId)
    let found := Store.findOne store roomId
    let store1 :=
      match found with
      | none => store ++ [seedDoc roomId now]
      | some _ => mongoUpdateOne store (fun d => d.roomId == roomId)
          (fun d => { d with lastActivity := now })
    let room :=
      match found with
      | none => seedDoc roomId now
      | some r => { r with lastActivity := now }
    { registry := reg2, store := store1, currentRoom := roomId,
      actions := [Action.toSender "user-id" (Payload.str socketId),
        Action.toSender "sync" (Payload.syncData room.files room.notes
          (orDefault room.activeFileId) (orDefault room.activeNoteId)),
        Action.toRoomAll roomId "users-update" (Payload.ids (membersOf reg2 roomId))] }

/-- The `file-create` handler (src/unnamed/part_001 lines 153-170). -/
def fileCreate (store : Store) (currentRoom : JStr) (file : CodeShare.File)
    (now : Int) : Store × List Action :=
  if !(truthy currentRoom) then (store, [])
  else
    let store1 := mongoUpdateOne store (fun d => d.roomId == currentRoom)
      (fun d => { d with
        files := d.files ++ [file],
        activeFileId := some file.id, lastActivity := now })
    (store1, [Action.toRoomOthers currentRoom "file-create" (Payload.fileData file)])

/-- The `file-update` handler (src/unnamed/part_001 lines 172-194): the
`$set` document always carries `files.$.content` with the message's
`content` value, and carries `files.$.language` only when the message's
`language` is truthy. -/
def fileUpdate (store : Store) (currentRoom : JStr) (d : FileUpdateMsg)
    (now : Int) : Store × List Action :=
  if !(truthy currentRoom) then (store, [])
  else
    let store1 := mongoUpdateOne store
      (fun doc => doc.roomId == currentRoom && doc.files.any (fun f => f.id == d.fileId))
      (fun doc => { doc with
        files := updateFirstFile doc.files d.fileId (fun f =>
          let f1 := { f with content := d.content }
          if truthy d.language then { f1 with language := d.language } else f1),
        lastActivity := now })
    (store1, [Action.toRoomOthers currentRoom "file-update" (Payload.updData d)])

/-- The `file-rename` handler (src/unnamed/part_001 lines 196-215). -/
def fileRename (store : Store) (currentRoom : JStr) (d : FileRenameMsg)
    (now : Int) : Store × List Action :=
  if !(truthy currentRoom) then (store, [])
  else
    let store1 := mongoUpdateOne store
      (fun doc => doc.roomId == currentRoom && doc.files.any (fun f => f.id == d.fileId))
      (fun doc => { doc with
        files := updateFirstFile doc.files d.fileId (fun f => { f with name := d.name }),
        lastActivity := now })
    (store1, [Action.toRoomOthers currentRoom "file-rename" (Payload.renData d)])

/-- The `file-delete` handler (src/unnamed/part_001 lines 217-242): look
up the room; refuse with an `error` to the sender only when the file
collection has at most one element; otherwise `$pull` every file with
the targeted id, bump `lastActivity`, and broadcast to the others.  A
missing room document makes the JavaScript handler throw before any
write; the `try/catch` swallows the error, so nothing happens. -/
def fileDelete (store : Store) (currentRoom : JStr) (fileId : String)
    (now : Int) : Store × List Action :=
  if !(truthy currentRoom) then (store, [])
  else
    match Store.findOne store currentRoom with
    | none => (store, [])
    | some room =>
      if room.files.length ≤ 1 then
        (store, [Action.toSender "error" (Payload.errMsg "Cannot delete the last file")])
      else
        let store1 := mongoUpdateOne store (fun d => d.roomId == currentRoom)
          (fun d => { d with
            files := d.files.filter (fun f => !(f.id == fileId)),
            lastActivity := now })
        (store1, [Action.toRoomOthers currentRoom "file-delete" (Payload.str fileId)])

/-- The `note-create` handler (src/unnamed/part_001 lines 246-263). -/
def noteCreate (store : Store) (currentRoom : JStr) (note : Note)
    (now : Int) : Store × List Action :=
  if !(truthy currentRoom) then (store, [])
  else
    let store1 := mongoUpdateOne store (fun d => d.roomId == currentRoom)
      (fun d => { d with
        notes := d.notes ++ [note],
        activeNoteId := some note.id, lastActivity := now })
    (store1, [Action.toRoomOthers currentRoom "note-create" (Payload.noteData note)])

/-- The `note-update` handler (src/unnamed/part_001 lines 265-283). -/
def noteUpdate (store : Store) (currentRoom : JStr) (d : NoteUpdateMsg)
    (now : Int) : Store × List Action :=
  if !(truthy currentRoom) then (store, [])
  else
    let store1 := mongoUpdateOne store
      (fun doc => doc.roomId == currentRoom && doc.notes.any (fun n => n.id == d.noteId))
      (fun doc => { doc with
        notes := updateFirstNote doc.notes d.noteId (fun n => { n with content := d.content }),
        lastActivity := now })
    (store1, [Action.toRoomOthers currentRoom "note-update" (Payload.noteUpdData d)])

/-- The `note-rename` handler (src/unnamed/part_001 lines 285-304). -/
def noteRename (store : Store) (currentRoom : JStr) (d : NoteRenameMsg)
    (now : Int) : Store × List Action :=
  if !(truthy currentRoom) then (store, [])
  else
    let store1 := mongoUpdateOne store
      (fun doc => doc.roomId == currentRoom && doc.notes.any (fun n => n.id == d.noteId))
      (fun doc => { doc with
        notes := updateFirstNote doc.notes d.noteId (fun n => { n with name := d.name }),
        lastActivity := now })
    (store1, [Action.toRoomOthers currentRoom "note-rename" (Payload.noteRenData d)])

/-- The `note-delete` handler (src/unnamed/part_001 lines 306-331),
analogous to `fileDelete`. -/
def noteDelete (store : Store) (currentRoom : JStr) (noteId : String)
    (now : Int) : Store × List Action :=
  if !(truthy currentRoom) then (store, [])
  else
    match Store.findOne store currentRoom with
    | none => (store, [])
    | some room =>
      if room.notes.length ≤ 1 then
        (store, [Action.toSender "error" (Payload.errMsg "Cannot delete the last note")])
      else
        let store1 := mongoUpdateOne store (fun d => d.roomId == currentRoom)
          (fun d => { d with
            notes := d.notes.filter (fun n => !(n.id == noteId)),
            lastActivity := now })
        (store1, [Action.toRoomOthers currentRoom "note-delete" (Payload.str noteId)])

/-- The `chat-message` handler (src/unnamed/part_001 lines 335-339). -/
def chatMessage (currentRoom : JStr) (d : Payload) : List Action :=
  if !(truthy currentRoom) then []
  else [Action.toRoomOthers currentRoom "chat-message" d]

/-- The `typing-start` handler (src/unnamed/part_001 lines 341-344). -/
def typingStart (currentRoom : JStr) : List Action :=
  if !(truthy currentRoom) then []
  else [Action.toRoomOthers currentRoom "typing-start" Payload.empty]

/-- The `audio-toggle` handler of the enhanced variant
(src/unnamed/part_001 lines 358-361): guarded on `currentRoom`. -/
def audioToggle (currentRoom : JStr) (d : Payload) : List Action :=
  if !(truthy currentRoom) then []
  else [Action.toRoomOthers currentRoom "audio-toggle" d]

/-- The `screen-share-toggle` handler of the enhanced variant
(src/unnamed/part_001 lines 363-366): guarded on `currentRoom`. -/
def screenShareToggle (currentRoom : JStr) (d : Payload) : List Action :=
  if !(truthy currentRoom) then []
  else [Action.toRoomOthers currentRoom "screen-share-toggle" d]

/-- A generic guarded signaling relay (`offer`, `answer`, `ice-candidate`,
`call-request`, `call-accepted`, `call-rejected`, `call-ended`;
src/unnamed/part_001 lines 368-405 all follow this shape). -/
def signalRelay (currentRoom : JStr) (ev : String) (d : Payload) : List Action :=
  if !(truthy currentRoom) then []
  else [Action.toRoomOthers currentRoom ev d]

/-- The `disconnect` handler (src/unnamed/part_001 lines 409-423): when
the connection had a room with a registry entry, remove it from the
member set, notify the others with `call-ended`, then either drop the
empty registry entry or broadcast the remaining member list.  The
persisted document is never touched. -/
def disconnect (reg : Registry) (store : Store) (currentRoom : JStr)
    (socketId : String) : Registry × Store × List Action :=
  if truthy currentRoom && Registry.hasKey reg currentRoom then
    let members1 := setDelete (membersOf reg currentRoom) socketId
    let reg1 := Registry.set reg currentRoom members1
    if members1.length = 0 then
      (Registry.del reg1 currentRoom, store,
        [Action.toRoomOthers currentRoom "call-ended" Payload.empty])
    else
      (reg1, store,
        [Action.toRoomOthers currentRoom "call-ended" Payload.empty,
         Action.toRoomAll currentRoom "users-update" (Payload.ids members1)])
  else (reg, store, [])

/-- Retention window of the cleanup job, in milliseconds
(src/unnamed/part_001 line 429: `24 * 60 * 60 * 1000`). -/
def retentionMs : Int := 24 * 60 * 60 * 1000

/-- The hourly cleanup job (src/unnamed/part_001 lines 427-432):
`Room.deleteMany(\x7blastActivity: \x7b$lt: now - 24h\x7d\x7d)`; returns the
remaining store and `deletedCount`. -/
def sweepExpired (store : Store) (now : Int) : Store × Nat :=
  let cutoff := now - retentionMs
  (store.filter (fun d => !(decide (d.lastActivity < cutoff))),
   (store.filter (fun d => decide (d.lastActivity < cutoff))).length)

end Enhanced

namespace ServerJs

/-!
Handlers specific to `src/server.js`.  Its mutate, chat and typing
handlers are guarded on `currentRoom` exactly like the enhanced variant,
but `audio-toggle` (lines 115-118) and `screen-share-toggle`
(lines 120-123) are not: they emit unconditionally, targeting the value
of `currentRoom` (the JavaScript `null` when the connection never
joined).
-/

/-- The `chat-message` handler (src/server.js lines 97-101): guarded. -/
def chatMessage (currentRoom : JStr) (d : Payload) : List Action :=
  if !(truthy currentRoom) then []
  else [Action.toRoomOthers currentRoom "chat-message" d]

/-- The `typing-start` handler (src/server.js lines 102-105): guarded. -/
def typingStart (currentRoom : JStr) : List Action :=
  if !(truthy currentRoom) then []
  else [Action.toRoomOthers currentRoom "typing-start" Payload.empty]

/-- The `audio-toggle` handler (src/server.js lines 115-118): no
`currentRoom` guard; it always emits `socket.to(currentRoom)`. -/
def audioToggle (currentRoom : JStr) (d : Payload) : List Action :=
  [Action.toRoomOthers currentRoom "audio-toggle" d]

/-- The `screen-share-toggle` handler (src/server.js lines 120-123): no
`currentRoom` guard. -/
def screenShareToggle (currentRoom : JStr) (d : Payload) : List Action :=
  [Action.toRoomOthers currentRoom "screen-share-toggle" d]

end ServerJs

/-!
Helper lemmas about the registry, the store and list surgery.
-/

theorem get_set_self (reg : Registry) (k : JStr) (v : List String) :
    Registry.get (Registry.set reg k v) k = some v := by
  induction reg with
  | nil => simp [Registry.set, Registry.get]
  | cons p rest ih =>
    by_cases h : (p.1 == k) = true
    · simp [Registry.set, Registry.get, h]
    · have h0 : (p.1 == k) = false := by
        rcases hb : (p.1 == k) with _ | _
        · rfl
        · exact absurd hb h
      simp [Registry.set, Registry.get, h0, ih]

theorem get_set_ne (reg : Registry) (k k' : JStr) (v : List String)
    (h : k' ≠ k) :
    Registry.get (Registry.set reg k v) k' = Registry.get reg k' := by
  have hkk : (k == k') = false := beq_eq_false_iff_ne.mpr (Ne.symm h)
  induction reg with
  | nil => simp [Registry.set, Registry.get, hkk]
  | cons p rest ih =>
    by_cases hp : (p.1 == k) = true
    · have hpk : (p.1 == k') = false := by
        rw [beq_iff_eq.mp hp]
        exact hkk
      simp [Registry.set, Registry.get, hp, hkk, hpk]
    · have hp0 : (p.1 == k) = false := by
        rcases hb : (p.1 == k) with _ | _
        · rfl
        · exact absurd hb hp
      by_cases hq : (p.1 == k') = true
      · simp [Registry.set, Registry.get, hp0, hq]
      · have hq0 : (p.1 == k') = false := by
          rcases hb : (p.1 == k') with _ | _
          · rfl
          · exact absurd hb hq
        simp [Registry.set, Registry.get, hp0, hq0, ih]

theorem get_del_self (reg : Registry) (k : JStr) :
    Registry.get (Registry.del reg k) k = none := by
  induction reg with
  | nil => rfl
  | cons p rest ih =>
    by_cases hp : (p.1 == k) = true
    · simp [Registry.del, hp, ih]
    · have hp0 : (p.1 == k) = false := by
        rcases hb : (p.1 == k) with _ | _
        · rfl
        · exact absurd hb hp
      simp [Registry.del, Registry.get, hp0, ih]

theorem membersOf_not_hasKey {reg : Registry} {k : JStr}
    (h : Registry.hasKey reg k = false) : membersOf reg k = [] := by
  unfold Registry.hasKey at h
  unfold membersOf
  rcases hg : Registry.get reg k with _ | l
  · rfl
  · rw [hg] at h
    simp at h

theorem setAdd_contains (s : List String) (x : String) :
    (setAdd s x).contains x = true := by
  unfold setAdd
  by_cases h : x ∈ s
  · simp [h]
  · simp [h]

theorem setAdd_length (s : List String) (x : String) :
    (setAdd s x).length ≤ s.length + 1 := by
  unfold setAdd
  by_cases h : x ∈ s
  · simp [h]
  · simp [h]

theorem findOne_updateOne (s : Store) (k : JStr) (q : RoomDoc → Bool)
    (g : RoomDoc → RoomDoc) (hg : ∀ x, (g x).roomId = x.roomId) (d : RoomDoc)
    (hf : Store.findOne s k = some d) (hq : q d = true) :
    Store.findOne (mongoUpdateOne s (fun x => x.roomId == k && q x) g) k
      = some (g d) := by
  induction s with
  | nil => simp [Store.findOne] at hf
  | cons h0 rest ih =>
    by_cases hk : (h0.roomId == k) = true
    · have hd : h0 = d := by
        rw [Store.findOne, if_pos hk] at hf
        exact Option.some.inj hf
      subst hd
      have hgk : ((g h0).roomId == k) = true := by
        rw [hg]
        exact hk
      simp [mongoUpdateOne, hk, hq, Store.findOne, hgk]
    · have hk0 : (h0.roomId == k) = false := by
        rcases hb : (h0.roomId == k) with _ | _
        · rfl
        · exact absurd hb hk
      rw [Store.findOne, if_neg hk] at hf
      simp [mongoUpdateOne, hk0, Store.findOne, ih hf]

theorem findOne_updateOne_plain (s : Store) (k : JStr)
    (g : RoomDoc → RoomDoc) (hg : ∀ x, (g x).roomId = x.roomId) (d : RoomDoc)
    (hf : Store.findOne s k = some d) :
    Store.findOne (mongoUpdateOne s (fun x => x.roomId == k) g) k
      = some (g d) := by
  induction s with
  | nil => simp [Store.findOne] at hf
  | cons h0 rest ih =>
    by_cases hk : (h0.roomId == k) = true
    · have hd : h0 = d := by
        rw [Store.findOne, if_pos hk] at hf
        exact Option.some.inj hf
      subst hd
      have hgk : ((g h0).roomId == k) = true := by
        rw [hg]
        exact hk
      simp [mongoUpdateOne, hk, Store.findOne, hgk]
    · have hk0 : (h0.roomId == k) = false := by
        rcases hb : (h0.roomId == k) with _ | _
        · rfl
        · exact absurd hb hk
      rw [Store.findOne, if_neg hk] at hf
      simp [mongoUpdateOne, hk0, Store.findOne, ih hf]

theorem findOne_append_seed {s : Store} {k : JStr} (d : RoomDoc)
    (hk : (d.roomId == k) = true) (h : Store.findOne s k = none) :
    Store.findOne (s ++ [d]) k = some d := by
  induction s with
  | nil => simp [Store.findOne, hk]
  | cons h0 rest ih =>
    by_cases hp : (h0.roomId == k) = true
    · rw [Store.findOne, if_pos hp] at h
      exact absurd h (by simp)
    · rw [Store.findOne, if_neg hp] at h
      rw [List.cons_append, Store.findOne, if_neg hp]
      exact ih h

theorem map_language_updateFirstFile (fs : List CodeShare.File) (fid : String)
    (g : CodeShare.File → CodeShare.File)
    (hg : ∀ f, (g f).language = f.language) :
    (updateFirstFile fs fid g).map (fun f => f.language)
      = fs.map (fun f => f.language) := by
  induction fs with
  | nil => rfl
  | cons f rest ih =>
    by_cases h : (f.id == fid) = true
    · simp [updateFirstFile, h, hg]
    · have h0 : (f.id == fid) = false := by
        rcases hb : (f.id == fid) with _ | _
        · rfl
        · exact absurd hb h
      simp [updateFirstFile, h0, ih]

theorem findFileId_updateFirstFile (fs : List CodeShare.File) (fid : String)
    (g : CodeShare.File → CodeShare.File) (hg : ∀ f, (g f).id = f.id) :
    findFile (updateFirstFile fs fid g) fid = (findFile fs fid).map g := by
  induction fs with
  | nil => rfl
  | cons f rest ih =>
    by_cases h : (f.id == fid) = true
    · have hgid : ((g f).id == fid) = true := by
        rw [hg]
        exact h
      simp [updateFirstFile, findFile, h, hgid]
    · have h0 : (f.id == fid) = false := by
        rcases hb : (f.id == fid) with _ | _
        · rfl
        · exact absurd hb h
      simp [updateFirstFile, findFile, h0, ih]

theorem membersOf_set_self (reg : Registry) (k : JStr) (v : List String) :
    membersOf (Registry.set reg k v) k = v := by
  unfold membersOf
  rw [get_set_self]
  rfl

theorem membersOf_set_ne (reg : Registry) (k k' : JStr) (v : List String)
    (h : k' ≠ k) :
    membersOf (Registry.set reg k v) k' = membersOf reg k' := by
  unfold membersOf
  rw [get_set_ne reg k k' v h]


theorem hasKey_of_count {reg : Registry} {rk : JStr}
    (h : 2 ≤ memberCount reg rk) : Registry.hasKey reg rk = true := by
  unfold memberCount membersOf at h
  unfold Registry.hasKey
  rcases hg : Registry.get reg rk with _ | l
  · rw [hg] at h
    simp at h
  · simp

theorem join_guard_true {reg : Registry} {rk : JStr}
    (h : 2 ≤ memberCount reg rk) :
    (Registry.hasKey reg rk && decide (2 ≤ memberCount reg rk)) = true := by
  rw [hasKey_of_count h]
  simp [h]

theorem join_guard_false {reg : Registry} {rk : JStr}
    (h : memberCount reg rk < 2) :
    (Registry.hasKey reg rk && decide (2 ≤ memberCount reg rk)) = false := by
  have : decide (2 ≤ memberCount reg rk) = false := by
    simp
    omega
  rw [this]
  simp

theorem joinRoom_reject (reg : Registry) (store : Store) (cur rk : JStr)
    (sid : String) (now : Int) (h : 2 ≤ memberCount reg rk) :
    Enhanced.joinRoom reg store cur sid rk now
      = { registry := reg, store := store, currentRoom := cur,
          actions := [Action.toSender "room-full" Payload.empty] } := by
  unfold Enhanced.joinRoom
  rw [if_pos]
  exact join_guard_true h

theorem joinRoom_members (reg : Registry) (store : Store) (cur rk : JStr)
    (sid : String) (now : Int) (h : memberCount reg rk < 2) :
    membersOf (Enhanced.joinRoom reg store cur sid rk now).registry rk
      = setAdd (membersOf reg rk) sid := by
  unfold Enhanced.joinRoom
  rw [if_neg (by rw [join_guard_false h]; exact Bool.false_ne_true)]
  by_cases hk : Registry.hasKey reg rk = true
  · simp only [hk, if_pos, if_true]
    rw [membersOf_set_self]
  · have hk0 : Registry.hasKey reg rk = false := by
      rcases hb : Registry.hasKey reg rk with _ | _
      · rfl
      · exact absurd hb hk
    simp only [hk0, Bool.false_eq_true, if_false]
    rw [membersOf_set_self, membersOf_set_self, membersOf_not_hasKey hk0]

theorem joinRoom_members_ne (reg : Registry) (store : Store) (cur rk : JStr)
    (sid : String) (now : Int) (k : JStr) (h : memberCount reg rk < 2)
    (hne : k ≠ rk) :
    membersOf (Enhanced.joinRoom reg store cur sid rk now).registry k
      = membersOf reg k := by
  unfold Enhanced.joinRoom
  rw [if_neg (by rw [join_guard_false h]; exact Bool.false_ne_true)]
  by_cases hk : Registry.hasKey reg rk = true
  · simp only [hk, if_pos, if_true]
    rw [membersOf_set_ne _ _ _ _ hne]
  · have hk0 : Registry.hasKey reg rk = false := by
      rcases hb : Registry.hasKey reg rk with _ | _
      · rfl
      · exact absurd hb hk
    simp only [hk0, Bool.false_eq_true, if_false]
    rw [membersOf_set_ne _ _ _ _ hne, membersOf_set_ne _ _ _ _ hne]

theorem joinRoom_admit_shape (reg : Registry) (store : Store) (cur rk : JStr)
    (sid : String) (now : Int) (h : memberCount reg rk < 2) :
    emitsRoomFull (Enhanced.joinRoom reg store cur sid rk now).actions = false
      ∧ (Enhanced.joinRoom reg store cur sid rk now).currentRoom = rk := by
  unfold Enhanced.joinRoom
  rw [if_neg (by rw [join_guard_false h]; exact Bool.false_ne_true)]
  exact ⟨by simp [emitsRoomFull, isSenderEmit], rfl⟩

theorem setAdd_not_mem (s : List String) (x : String) (h : ¬ x ∈ s) :
    setAdd s x = s ++ [x] := by
  unfold setAdd
  rw [if_neg]
  simp [h]

theorem memberCount_nil (rk : JStr) : memberCount [] rk = 0 := rfl

/-- C1: a `join-room` is admitted (no `room-full` emission) iff the
room's current member count is below 2; starting from an empty
membership map, three join attempts for the same room key by pairwise
distinct connections — in whatever order the three arrive, since the
connection identifiers are arbitrary — produce exactly two admissions
followed by one `room-full` rejection that leaves the membership map
untouched; and processing any join event can never push any room's
member count beyond 2. -/
theorem c1_two_member_cap :
    (∀ (reg : Registry) (store : Store) (cur : JStr) (sid : String) (rk : JStr) (now : Int),
        (emitsRoomFull (Enhanced.joinRoom reg store cur sid rk now).actions = false
          ↔ memberCount reg rk < 2))
  ∧ (∀ (store : Store) (now : Int) (rk : JStr) (a b c : String),
        a ≠ b → b ≠ c → a ≠ c →
        emitsRoomFull (Enhanced.joinRoom [] store none a rk now).actions = false
        ∧ emitsRoomFull (Enhanced.joinRoom
            (Enhanced.joinRoom [] store none a rk now).registry
            (Enhanced.joinRoom [] store none a rk now).store
            none b rk now).actions = false
        ∧ (Enhanced.joinRoom
            (Enhanced.joinRoom
              (Enhanced.joinRoom [] store none a rk now).registry
              (Enhanced.joinRoom [] store none a rk now).store
              none b rk now).registry
            (Enhanced.joinRoom
              (Enhanced.joinRoom [] store none a rk now).registry
              (Enhanced.joinRoom [] store none a rk now).store
              none b rk now).store
            none c rk now)
          = { registry := (Enhanced.joinRoom
                (Enhanced.joinRoom [] store none a rk now).registry
                (Enhanced.joinRoom [] store none a rk now).store
                none b rk now).registry,
              store := (Enhanced.joinRoom
                (Enhanced.joinRoom [] store none a rk now).registry
                (Enhanced.joinRoom [] store none a rk now).store
                none b rk now).store,
              currentRoom := none,
              actions := [Action.toSender "room-full" Payload.empty] }
        ∧ membersOf (Enhanced.joinRoom
            (Enhanced.joinRoom [] store none a rk now).registry
            (Enhanced.joinRoom [] store none a rk now).store
            none b rk now).registry rk = [a, b])
  ∧ (∀ (reg : Registry) (store : Store) (cur : JStr) (sid : String) (rk k : JStr) (now : Int),
        memberCount reg k ≤ 2 →
        memberCount (Enhanced.joinRoom reg store cur sid rk now).registry k ≤ 2) := by
  refine ⟨?_, ?_, ?_⟩
  · intro reg store cur sid rk now
    by_cases hg : 2 ≤ memberCount reg rk
    · rw [joinRoom_reject reg store cur rk sid now hg]
      constructor
      · intro hfalse
        exfalso
        revert hfalse
        simp [emitsRoomFull, isSenderEmit]
      · intro hlt
        omega
    · have hlt : memberCount reg rk < 2 := by omega
      constructor
      · intro _
        exact hlt
      · intro _
        exact (joinRoom_admit_shape reg store cur rk sid now hlt).1
  · intro store now rk a b c hab hbc hac
    have h0 : memberCount ([] : Registry) rk < 2 := by
      rw [memberCount_nil]
      omega
    have m1 : membersOf (Enhanced.joinRoom [] store none a rk now).registry rk = [a] := by
      rw [joinRoom_members [] store none rk a now h0]
      rfl
    have h1 : memberCount (Enhanced.joinRoom [] store none a rk now).registry rk < 2 := by
      rw [memberCount, m1]
      simp
    have m2 : membersOf (Enhanced.joinRoom
        (Enhanced.joinRoom [] store none a rk now).registry
        (Enhanced.joinRoom [] store none a rk now).store
        none b rk now).registry rk = [a, b] := by
      rw [joinRoom_members _ _ none rk b now h1, m1,
          setAdd_not_mem [a] b (by simp [Ne.symm hab])]
      rfl
    have h2 : 2 ≤ memberCount (Enhanced.joinRoom
        (Enhanced.joinRoom [] store none a rk now).registry
        (Enhanced.joinRoom [] store none a rk now).store
        none b rk now).registry rk := by
      rw [memberCount, m2]
      simp
    refine ⟨(joinRoom_admit_shape [] store none rk a now h0).1,
            (joinRoom_admit_shape _ _ none rk b now h1).1,
            joinRoom_reject _ _ none rk c now h2, m2⟩
  · intro reg store cur sid rk k now h
    by_cases hg : 2 ≤ memberCount reg rk
    · rw [joinRoom_reject reg store cur rk sid now hg]
      exact h
    · have hlt : memberCount reg rk < 2 := by omega
      by_cases hk : k = rk
      · subst hk
        rw [memberCount, joinRoom_members reg store cur k sid now hlt]
        have := setAdd_length (membersOf reg k) sid
        unfold memberCount at hlt
        omega
      · rw [memberCount, joinRoom_members_ne reg store cur rk sid now k hlt hk]
        exact h

/-- C1 witness: the admission criterion, the three-join scenario and the
cap-preservation applied at concrete inputs. -/
theorem c1_two_member_cap_witness :
    (emitsRoomFull (Enhanced.joinRoom [] [] none "s1" (some "r") 0).actions = false
       ↔ memberCount ([] : Registry) (some "r") < 2)
    ∧ emitsRoomFull (Enhanced.joinRoom [] [] none "s1" (some "r") 0).actions = false
    ∧ emitsRoomFull (Enhanced.joinRoom
        (Enhanced.joinRoom [] [] none "s1" (some "r") 0).registry
        (Enhanced.joinRoom [] [] none "s1" (some "r") 0).store
        none "s2" (some "r") 0).actions = false
    ∧ membersOf (Enhanced.joinRoom
        (Enhanced.joinRoom [] [] none "s1" (some "r") 0).registry
        (Enhanced.joinRoom [] [] none "s1" (some "r") 0).store
        none "s2" (some "r") 0).registry (some "r") = ["s1", "s2"]
    ∧ memberCount (Enhanced.joinRoom [] [] none "s3" (some "r") 0).registry (some "r") ≤ 2 := by
  have h3 := c1_two_member_cap.2.1 [] 0 (some "r") "s1" "s2" "s3"
    (by decide) (by decide) (by decide)
  exact ⟨c1_two_member_cap.1 [] [] none "s1" (some "r") 0,
         h3.1, h3.2.1, h3.2.2.2,
         c1_two_member_cap.2.2 [] [] none "s3" (some "r") (some "r") 0 (by decide)⟩


/-- C2 counterexample: the join handler never checks whether the
connection is already joined.  Connection `s1` joins room `A`, then
issues a second `join-room` for room `B`: the second join is admitted
(no `room-full`, no `error`), `currentRoom` silently switches from
`A` to `B`, and `s1` is still recorded as a member of room `A`. -/
theorem c2_counterexample :
    let o1 := Enhanced.joinRoom [] [] none "s1" (some "A") 0
    let o2 := Enhanced.joinRoom o1.registry o1.store o1.currentRoom "s1" (some "B") 1
    o1.currentRoom = some "A" ∧ o2.currentRoom = some "B"
      ∧ emitsRoomFull o2.actions = false ∧ emitsError o2.actions = false
      ∧ membersOf o2.registry (some "A") = ["s1"]
      ∧ membersOf o2.registry (some "B") = ["s1"] := by
  decide

/-- C2 amended: a second `join-room` while already joined is processed
exactly like a fresh join — whenever the requested room has fewer than
two members it is admitted, the connection's `currentRoom` silently
switches to the requested key (whatever `currentRoom` held before), the
connection is added to the requested room's member set, and no other
room's member set changes, so the previous room keeps its stale
entry for the connection. -/
theorem c2_join_switches_rooms (reg : Registry) (store : Store) (cur : JStr)
    (sid : String) (rk : JStr) (now : Int) (h : memberCount reg rk < 2) :
    (Enhanced.joinRoom reg store cur sid rk now).currentRoom = rk
    ∧ (membersOf (Enhanced.joinRoom reg store cur sid rk now).registry rk).contains sid = true
    ∧ ∀ k, k ≠ rk →
        membersOf (Enhanced.joinRoom reg store cur sid rk now).registry k = membersOf reg k := by
  refine ⟨(joinRoom_admit_shape reg store cur rk sid now h).2, ?_, ?_⟩
  · rw [joinRoom_members reg store cur rk sid now h]
    exact setAdd_contains _ _
  · intro k hk
    exact joinRoom_members_ne reg store cur rk sid now k h hk

/-- C2 witness: the amended behaviour at a concrete input — `s1` is
joined to room `A` and issues `join-room("B")`. -/
theorem c2_join_switches_rooms_witness :
    (Enhanced.joinRoom [(some "A", ["s1"])] [] (some "A") "s1" (some "B") 1).currentRoom = some "B"
    ∧ (membersOf (Enhanced.joinRoom [(some "A", ["s1"])] [] (some "A") "s1" (some "B") 1).registry
        (some "B")).contains "s1" = true
    ∧ membersOf (Enhanced.joinRoom [(some "A", ["s1"])] [] (some "A") "s1" (some "B") 1).registry
        (some "A") = membersOf [(some "A", ["s1"])] (some "A") := by
  have h := c2_join_switches_rooms [(some "A", ["s1"])] [] (some "A") "s1" (some "B") 1 (by decide)
  exact ⟨h.1, h.2.1, h.2.2 (some "A") (by decide)⟩

/-- C3: when the sender is joined and its room document exists,
`file-delete` on a one-file collection returns the protection error to
the sender only (no broadcast, store untouched); on a collection with
two or more files it removes exactly the files with the targeted id,
preserving the order of the rest, bumps `lastActivity`, and broadcasts
`file-delete` to the other members; `note-delete` behaves analogously;
and a `toSender` emission is delivered to the sender alone. -/
theorem c3_last_item_protected :
    (∀ (store : Store) (rk : JStr) (d : RoomDoc) (fid : String) (now : Int),
        truthy rk = true → Store.findOne store rk = some d → d.files.length = 1 →
        Enhanced.fileDelete store rk fid now
          = (store, [Action.toSender "error" (Payload.errMsg "Cannot delete the last file")]))
  ∧ (∀ (store : Store) (rk : JStr) (d : RoomDoc) (fid : String) (now : Int),
        truthy rk = true → Store.findOne store rk = some d → 2 ≤ d.files.length →
        (Enhanced.fileDelete store rk fid now).2
            = [Action.toRoomOthers rk "file-delete" (Payload.str fid)]
          ∧ Store.findOne (Enhanced.fileDelete store rk fid now).1 rk
            = some { d with
                files := d.files.filter (fun f => !(f.id == fid)),
                lastActivity := now })
  ∧ (∀ (store : Store) (rk : JStr) (d : RoomDoc) (nid : String) (now : Int),
        truthy rk = true → Store.findOne store rk = some d → d.notes.length = 1 →
        Enhanced.noteDelete store rk nid now
          = (store, [Action.toSender "error" (Payload.errMsg "Cannot delete the last note")]))
  ∧ (∀ (store : Store) (rk : JStr) (d : RoomDoc) (nid : String) (now : Int),
        truthy rk = true → Store.findOne store rk = some d → 2 ≤ d.notes.length →
        (Enhanced.noteDelete store rk nid now).2
            = [Action.toRoomOthers rk "note-delete" (Payload.str nid)]
          ∧ Store.findOne (Enhanced.noteDelete store rk nid now).1 rk
            = some { d with
                notes := d.notes.filter (fun n => !(n.id == nid)),
                lastActivity := now })
  ∧ (∀ (reg : Registry) (sid m : String),
        deliverTo reg sid (Action.toSender "error" (Payload.errMsg m)) = [sid]) := by
  refine ⟨?_, ?_, ?_, ?_, ?_⟩
  · intro store rk d fid now ht hf h1
    unfold Enhanced.fileDelete
    rw [ht]
    simp only [Bool.not_true, Bool.false_eq_true, if_false, hf]
    rw [if_pos (by omega)]
  · intro store rk d fid now ht hf h2
    unfold Enhanced.fileDelete
    rw [ht]
    simp only [Bool.not_true, Bool.false_eq_true, if_false, hf]
    rw [if_neg (by omega)]
    exact ⟨rfl, findOne_updateOne_plain store rk
      (fun x => { x with files := x.files.filter (fun f => !(f.id == fid)), lastActivity := now })
      (fun x => rfl) d hf⟩
  · intro store rk d nid now ht hf h1
    unfold Enhanced.noteDelete
    rw [ht]
    simp only [Bool.not_true, Bool.false_eq_true, if_false, hf]
    rw [if_pos (by omega)]
  · intro store rk d nid now ht hf h2
    unfold Enhanced.noteDelete
    rw [ht]
    simp only [Bool.not_true, Bool.false_eq_true, if_false, hf]
    rw [if_neg (by omega)]
    exact ⟨rfl, findOne_updateOne_plain store rk
      (fun x => { x with notes := x.notes.filter (fun n => !(n.id == nid)), lastActivity := now })
      (fun x => rfl) d hf⟩
  · intro reg sid m
    rfl

/-- C3 witness: the one-file protection and the two-file removal at
concrete inputs. -/
theorem c3_last_item_protected_witness :
    (Enhanced.fileDelete
        [{ roomId := some "r",
           files := [{ id := "a", name := "a.js", content := some "1", language := none }],
           notes := [{ id := "n", name := "Notes", content := none }],
           activeFileId := none, activeNoteId := none, createdAt := 0, lastActivity := 0 }]
        (some "r") "a" 9
      = ([{ roomId := some "r",
            files := [{ id := "a", name := "a.js", content := some "1", language := none }],
            notes := [{ id := "n", name := "Notes", content := none }],
            activeFileId := none, activeNoteId := none, createdAt := 0, lastActivity := 0 }],
         [Action.toSender "error" (Payload.errMsg "Cannot delete the last file")]))
    ∧ (Store.findOne
        (Enhanced.fileDelete
          [{ roomId := some "r",
             files := [{ id := "a", name := "a.js", content := some "1", language := none },
                       { id := "b", name := "b.js", content := some "2", language := none }],
             notes := [{ id := "n", name := "Notes", content := none }],
             activeFileId := none, activeNoteId := none, createdAt := 0, lastActivity := 0 }]
          (some "r") "b" 9).1 (some "r")
      = some { roomId := some "r",
               files := [{ id := "a", name := "a.js", content := some "1", language := none }],
               notes := [{ id := "n", name := "Notes", content := none }],
               activeFileId := none, activeNoteId := none, createdAt := 0, lastActivity := 9 }) := by
  constructor
  · exact c3_last_item_protected.1
      [{ roomId := some "r",
         files := [{ id := "a", name := "a.js", content := some "1", language := none }],
         notes := [{ id := "n", name := "Notes", content := none }],
         activeFileId := none, activeNoteId := none, createdAt := 0, lastActivity := 0 }]
      (some "r")
      { roomId := some "r",
        files := [{ id := "a", name := "a.js", content := some "1", language := none }],
        notes := [{ id := "n", name := "Notes", content := none }],
        activeFileId := none, activeNoteId := none, createdAt := 0, lastActivity := 0 }
      "a" 9 (by decide) (by decide) (by decide)
  · have h := (c3_last_item_protected.2.1
      [{ roomId := some "r",
         files := [{ id := "a", name := "a.js", content := some "1", language := none },
                   { id := "b", name := "b.js", content := some "2", language := none }],
         notes := [{ id := "n", name := "Notes", content := none }],
         activeFileId := none, activeNoteId := none, createdAt := 0, lastActivity := 0 }]
      (some "r")
      { roomId := some "r",
        files := [{ id := "a", name := "a.js", content := some "1", language := none },
                  { id := "b", name := "b.js", content := some "2", language := none }],
        notes := [{ id := "n", name := "Notes", content := none }],
        activeFileId := none, activeNoteId := none, createdAt := 0, lastActivity := 0 }
      "b" 9 (by decide) (by decide) (by decide)).2
    rw [h]
    decide


/-- C4 counterexample: the `audio-toggle` handler of src/server.js has
no `currentRoom` guard.  An unjoined connection `s1` (its `currentRoom`
still the initial `null`) that sends `audio-toggle` makes the server
emit `socket.to(null)` — a broadcast targeting the `null` room key, not
a silently ignored event.  The `null` room key is reachable: a client
that sends `join-room(null)` (here `s2`) is registered under that key,
so `s1`'s unjoined `audio-toggle` is actually delivered to `s2`. -/
theorem c4_counterexample :
    let o := Enhanced.joinRoom [] [] none "s2" none 0
    ServerJs.audioToggle none (Payload.str "on")
        = [Action.toRoomOthers none "audio-toggle" (Payload.str "on")]
      ∧ o.registry = [(none, ["s2"])]
      ∧ deliverTo o.registry "s1" (Action.toRoomOthers none "audio-toggle" (Payload.str "on"))
        = ["s2"] := by
  decide

/-- C4 amended: every mutate handler and every guarded relay handler
(chat, typing, and in the enhanced variant also the media toggles and
call signaling) silently drops an event from an unjoined connection —
no store operation, no emission.  The exceptions are `audio-toggle` and
`screen-share-toggle` in src/server.js, which have no guard: they issue
a broadcast aimed at the unset (`null`) room key, whose recipients are
exactly the members registered under that key (nobody, unless some
connection joined with a `null` room key). -/
theorem c4_unjoined_events (store : Store) (d : Payload) (dm : FileUpdateMsg)
    (dr : FileRenameMsg) (dn : NoteUpdateMsg) (drn : NoteRenameMsg)
    (f : CodeShare.File) (n : Note) (fid nid : String) (now : Int) :
    Enhanced.fileCreate store none f now = (store, [])
    ∧ Enhanced.fileUpdate store none dm now = (store, [])
    ∧ Enhanced.fileRename store none dr now = (store, [])
    ∧ Enhanced.fileDelete store none fid now = (store, [])
    ∧ Enhanced.noteCreate store none n now = (store, [])
    ∧ Enhanced.noteUpdate store none dn now = (store, [])
    ∧ Enhanced.noteRename store none drn now = (store, [])
    ∧ Enhanced.noteDelete store none nid now = (store, [])
    ∧ Enhanced.chatMessage none d = []
    ∧ Enhanced.typingStart none = []
    ∧ Enhanced.audioToggle none d = []
    ∧ Enhanced.screenShareToggle none d = []
    ∧ (∀ ev, Enhanced.signalRelay none ev d = [])
    ∧ ServerJs.chatMessage none d = []
    ∧ ServerJs.typingStart none = []
    ∧ ServerJs.audioToggle none d = [Action.toRoomOthers none "audio-toggle" d]
    ∧ ServerJs.screenShareToggle none d = [Action.toRoomOthers none "screen-share-toggle" d]
    ∧ (∀ (reg : Registry) (sid ev : String),
        deliverTo reg sid (Action.toRoomOthers none ev d)
          = (membersOf reg none).filter (fun m => m != sid)) :=
  ⟨rfl, rfl, rfl, rfl, rfl, rfl, rfl, rfl, rfl, rfl, rfl, rfl, fun _ => rfl,
   rfl, rfl, rfl, rfl, fun _ _ _ => rfl⟩

/-- C5: the hourly sweep keeps a stored room document iff its
`lastActivity` is not older than `now` minus the 24-hour retention
window (so a document 25 hours stale is deleted and one 1 hour stale is
preserved), and running the sweep again immediately on the result
deletes nothing. -/
theorem c5_sweep_retention :
    (∀ (store : Store) (now : Int) (d : RoomDoc), d ∈ store →
        (d ∈ (Enhanced.sweepExpired store now).1
          ↔ ¬ d.lastActivity < now - Enhanced.retentionMs))
  ∧ (∀ (store : Store) (now : Int),
        Enhanced.sweepExpired (Enhanced.sweepExpired store now).1 now
          = ((Enhanced.sweepExpired store now).1, 0)) := by
  constructor
  · intro store now d hd
    unfold Enhanced.sweepExpired
    simp [List.mem_filter, hd]
  · intro store now
    unfold Enhanced.sweepExpired
    simp [List.filter_filter]

/-- C5 witness: a document whose `lastActivity` is 25 hours old is
swept, one 1 hour old survives, and the second sweep is a no-op, at
`now` = 90000000 ms. -/
theorem c5_sweep_retention_witness :
    ({ roomId := some "old", files := [], notes := [], activeFileId := none,
       activeNoteId := none, createdAt := 0, lastActivity := 0 : RoomDoc }
        ∈ (Enhanced.sweepExpired
            [{ roomId := some "old", files := [], notes := [], activeFileId := none,
               activeNoteId := none, createdAt := 0, lastActivity := 0 },
             { roomId := some "new", files := [], notes := [], activeFileId := none,
               activeNoteId := none, createdAt := 0, lastActivity := 86400000 }] 90000000).1
      ↔ ¬ (0 : Int) < 90000000 - Enhanced.retentionMs)
    ∧ ({ roomId := some "new", files := [], notes := [], activeFileId := none,
         activeNoteId := none, createdAt := 0, lastActivity := 86400000 : RoomDoc }
        ∈ (Enhanced.sweepExpired
            [{ roomId := some "old", files := [], notes := [], activeFileId := none,
               activeNoteId := none, createdAt := 0, lastActivity := 0 },
             { roomId := some "new", files := [], notes := [], activeFileId := none,
               activeNoteId := none, createdAt := 0, lastActivity := 86400000 }] 90000000).1
      ↔ ¬ (86400000 : Int) < 90000000 - Enhanced.retentionMs)
    ∧ Enhanced.sweepExpired
        (Enhanced.sweepExpired
          [{ roomId := some "old", files := [], notes := [], activeFileId := none,
             activeNoteId := none, createdAt := 0, lastActivity := 0 },
           { roomId := some "new", files := [], notes := [], activeFileId := none,
             activeNoteId := none, createdAt := 0, lastActivity := 86400000 }] 90000000).1 90000000
      = ((Enhanced.sweepExpired
          [{ roomId := some "old", files := [], notes := [], activeFileId := none,
             activeNoteId := none, createdAt := 0, lastActivity := 0 },
           { roomId := some "new", files := [], notes := [], activeFileId := none,
             activeNoteId := none, createdAt := 0, lastActivity := 86400000 }] 90000000).1, 0) := by
  refine ⟨c5_sweep_retention.1 _ 90000000 _ (by decide), c5_sweep_retention.1 _ 90000000 _ (by decide),
          c5_sweep_retention.2 _ 90000000⟩

/-- C6: joining an unseen room key creates the document seeded with
exactly the one default file and one default note (fixed placeholder
content), and the joiner's `sync` carries exactly that seed; joining a
key whose document exists re-sends the stored `files`/`notes` content
verbatim (only `lastActivity` is refreshed), not a fresh seed. -/
theorem c6_seed_once :
    (∀ (reg : Registry) (store : Store) (cur : JStr) (sid : String) (rk : JStr) (now : Int),
        memberCount reg rk < 2 → Store.findOne store rk = none →
        Store.findOne (Enhanced.joinRoom reg store cur sid rk now).store rk
            = some (Enhanced.seedDoc rk now)
          ∧ (Enhanced.seedDoc rk now).files = [Enhanced.defaultFile]
          ∧ (Enhanced.seedDoc rk now).notes = [Enhanced.defaultNote]
          ∧ (Enhanced.joinRoom reg store cur sid rk now).actions
            = [Action.toSender "user-id" (Payload.str sid),
               Action.toSender "sync" (Payload.syncData [Enhanced.defaultFile]
                 [Enhanced.defaultNote] (some "default") (some "default")),
               Action.toRoomAll rk "users-update"
                 (Payload.ids (membersOf (Enhanced.joinRoom reg store cur sid rk now).registry rk))])
  ∧ (∀ (reg : Registry) (store : Store) (cur : JStr) (sid : String) (rk : JStr)
        (now : Int) (d : RoomDoc),
        memberCount reg rk < 2 → Store.findOne store rk = some d →
        Store.findOne (Enhanced.joinRoom reg store cur sid rk now).store rk
            = some { d with lastActivity := now }
          ∧ (Enhanced.joinRoom reg store cur sid rk now).actions
            = [Action.toSender "user-id" (Payload.str sid),
               Action.toSender "sync" (Payload.syncData d.files d.notes
                 (Enhanced.orDefault d.activeFileId) (Enhanced.orDefault d.activeNoteId)),
               Action.toRoomAll rk "users-update"
                 (Payload.ids (membersOf (Enhanced.joinRoom reg store cur sid rk now).registry rk))]) := by
  constructor
  · intro reg store cur sid rk now h hf
    have hguard := join_guard_false h
    unfold Enhanced.joinRoom
    rw [if_neg (by rw [hguard]; exact Bool.false_ne_true)]
    simp only [hf]
    refine ⟨?_, rfl, rfl, rfl⟩
    exact findOne_append_seed _ (by simp [Enhanced.seedDoc]) hf
  · intro reg store cur sid rk now d h hf
    have hguard := join_guard_false h
    unfold Enhanced.joinRoom
    rw [if_neg (by rw [hguard]; exact Bool.false_ne_true)]
    simp only [hf]
    refine ⟨?_, by trivial⟩
    exact findOne_updateOne_plain store rk (fun x => { x with lastActivity := now })
      (fun x => rfl) d hf

/-- C6 witness: a fresh join of room `r` seeds the document, and the
second connection's join returns the stored content (here already
mutated away from the seed) unchanged. -/
theorem c6_seed_once_witness :
    (Store.findOne (Enhanced.joinRoom [] [] none "s1" (some "r") 3).store (some "r")
        = some (Enhanced.seedDoc (some "r") 3))
    ∧ (Store.findOne
        (Enhanced.joinRoom [(some "r", ["s1"])]
          [{ roomId := some "r",
             files := [{ id := "f9", name := "x.py", content := some "print(1)", language := some "python" }],
             notes := [{ id := "n9", name := "Notes", content := some "mine" }],
             activeFileId := some "f9", activeNoteId := some "n9",
             createdAt := 3, lastActivity := 3 }]
          none "s2" (some "r") 7).store (some "r")
        = some { roomId := some "r",
                 files := [{ id := "f9", name := "x.py", content := some "print(1)", language := some "python" }],
                 notes := [{ id := "n9", name := "Notes", content := some "mine" }],
                 activeFileId := some "f9", activeNoteId := some "n9",
                 createdAt := 3, lastActivity := 7 }) := by
  constructor
  · exact (c6_seed_once.1 [] [] none "s1" (some "r") 3 (by decide) (by decide)).1
  · exact (c6_seed_once.2 [(some "r", ["s1"])]
      [{ roomId := some "r",
         files := [{ id := "f9", name := "x.py", content := some "print(1)", language := some "python" }],
         notes := [{ id := "n9", name := "Notes", content := some "mine" }],
         activeFileId := some "f9", activeNoteId := some "n9",
         createdAt := 3, lastActivity := 3 }]
      none "s2" (some "r") 7
      { roomId := some "r",
        files := [{ id := "f9", name := "x.py", content := some "print(1)", language := some "python" }],
        notes := [{ id := "n9", name := "Notes", content := some "mine" }],
        activeFileId := some "f9", activeNoteId := some "n9",
        createdAt := 3, lastActivity := 3 }
      (by decide) (by decide)).1


theorem findFile_isSome_of_any {fs : List CodeShare.File} {fid : String}
    (h : fs.any (fun f => f.id == fid) = true) : (findFile fs fid).isSome = true := by
  induction fs with
  | nil => simp at h
  | cons f rest ih =>
    by_cases hh : (f.id == fid) = true
    · simp [findFile, hh]
    · have h0 : (f.id == fid) = false := by
        rcases hb : (f.id == fid) with _ | _
        · rfl
        · exact absurd hb hh
      rw [List.any_cons, h0, Bool.false_or] at h
      simp only [findFile, h0, Bool.false_eq_true, if_false]
      exact ih h

theorem hasKey_of_members_cons {reg : Registry} {rk : JStr} {x : String}
    {xs : List String} (h : membersOf reg rk = x :: xs) :
    Registry.hasKey reg rk = true := by
  unfold membersOf at h
  unfold Registry.hasKey
  rcases hg : Registry.get reg rk with _ | l
  · rw [hg] at h
    simp at h
  · simp

/-- C7: every successful mutating operation on a room document
(file/note create, update, rename, delete) stamps the document's
`lastActivity` with the operation time, and a document whose
`lastActivity` equals `now` survives any sweep run at or before
`now` plus the 24-hour retention window. -/
theorem c7_last_activity :
    (∀ (store : Store) (rk : JStr) (d : RoomDoc) (f : CodeShare.File) (now : Int),
        truthy rk = true → Store.findOne store rk = some d →
        lastActivityOf (Enhanced.fileCreate store rk f now).1 rk = some now)
  ∧ (∀ (store : Store) (rk : JStr) (d : RoomDoc) (dm : FileUpdateMsg) (now : Int),
        truthy rk = true → Store.findOne store rk = some d →
        d.files.any (fun f => f.id == dm.fileId) = true →
        lastActivityOf (Enhanced.fileUpdate store rk dm now).1 rk = some now)
  ∧ (∀ (store : Store) (rk : JStr) (d : RoomDoc) (dr : FileRenameMsg) (now : Int),
        truthy rk = true → Store.findOne store rk = some d →
        d.files.any (fun f => f.id == dr.fileId) = true →
        lastActivityOf (Enhanced.fileRename store rk dr now).1 rk = some now)
  ∧ (∀ (store : Store) (rk : JStr) (d : RoomDoc) (fid : String) (now : Int),
        truthy rk = true → Store.findOne store rk = some d → 2 ≤ d.files.length →
        lastActivityOf (Enhanced.fileDelete store rk fid now).1 rk = some now)
  ∧ (∀ (store : Store) (rk : JStr) (d : RoomDoc) (n : Note) (now : Int),
        truthy rk = true → Store.findOne store rk = some d →
        lastActivityOf (Enhanced.noteCreate store rk n now).1 rk = some now)
  ∧ (∀ (store : Store) (rk : JStr) (d : RoomDoc) (dn : NoteUpdateMsg) (now : Int),
        truthy rk = true → Store.findOne store rk = some d →
        d.notes.any (fun x => x.id == dn.noteId) = true →
        lastActivityOf (Enhanced.noteUpdate store rk dn now).1 rk = some now)
  ∧ (∀ (store : Store) (rk : JStr) (d : RoomDoc) (dr : NoteRenameMsg) (now : Int),
        truthy rk = true → Store.findOne store rk = some d →
        d.notes.any (fun x => x.id == dr.noteId) = true →
        lastActivityOf (Enhanced.noteRename store rk dr now).1 rk = some now)
  ∧ (∀ (store : Store) (rk : JStr) (d : RoomDoc) (nid : String) (now : Int),
        truthy rk = true → Store.findOne store rk = some d → 2 ≤ d.notes.length →
        lastActivityOf (Enhanced.noteDelete store rk nid now).1 rk = some now)
  ∧ (∀ (store : Store) (t now : Int) (d : RoomDoc),
        d ∈ store → d.lastActivity = now → t ≤ now + Enhanced.retentionMs →
        d ∈ (Enhanced.sweepExpired store t).1) := by
  refine ⟨?_, ?_, ?_, ?_, ?_, ?_, ?_, ?_, ?_⟩
  · intro store rk d f now ht hf
    unfold Enhanced.fileCreate
    rw [ht]
    simp only [Bool.not_true, Bool.false_eq_true, if_false]
    unfold lastActivityOf
    rw [findOne_updateOne_plain store rk
      (fun x => { x with files := x.files ++ [f], activeFileId := some f.id, lastActivity := now })
      (fun x => rfl) d hf]
    rfl
  · intro store rk d dm now ht hf hm
    unfold Enhanced.fileUpdate
    rw [ht]
    simp only [Bool.not_true, Bool.false_eq_true, if_false]
    unfold lastActivityOf
    rw [findOne_updateOne store rk
      (fun doc => doc.files.any (fun f => f.id == dm.fileId))
      (fun doc => { doc with
        files := updateFirstFile doc.files dm.fileId (fun f =>
          if truthy dm.language = true
          then { f with content := dm.content, language := dm.language }
          else { f with content := dm.content }),
        lastActivity := now })
      (fun x => rfl) d hf hm]
    rfl
  · intro store rk d dr now ht hf hm
    unfold Enhanced.fileRename
    rw [ht]
    simp only [Bool.not_true, Bool.false_eq_true, if_false]
    unfold lastActivityOf
    rw [findOne_updateOne store rk
      (fun doc => doc.files.any (fun f => f.id == dr.fileId))
      (fun doc => { doc with
        files := updateFirstFile doc.files dr.fileId (fun f => { f with name := dr.name }),
        lastActivity := now })
      (fun x => rfl) d hf hm]
    rfl
  · intro store rk d fid now ht hf h2
    unfold Enhanced.fileDelete
    rw [ht]
    simp only [Bool.not_true, Bool.false_eq_true, if_false, hf]
    rw [if_neg (by omega)]
    unfold lastActivityOf
    dsimp only
    rw [findOne_updateOne_plain store rk
      (fun x => { x with files := x.files.filter (fun f => !(f.id == fid)), lastActivity := now })
      (fun x => rfl) d hf]
    rfl
  · intro store rk d n now ht hf
    unfold Enhanced.noteCreate
    rw [ht]
    simp only [Bool.not_true, Bool.false_eq_true, if_false]
    unfold lastActivityOf
    rw [findOne_updateOne_plain store rk
      (fun x => { x with notes := x.notes ++ [n], activeNoteId := some n.id, lastActivity := now })
      (fun x => rfl) d hf]
    rfl
  · intro store rk d dn now ht hf hm
    unfold Enhanced.noteUpdate
    rw [ht]
    simp only [Bool.not_true, Bool.false_eq_true, if_false]
    unfold lastActivityOf
    rw [findOne_updateOne store rk
      (fun doc => doc.notes.any (fun x => x.id == dn.noteId))
      (fun doc => { doc with
        notes := updateFirstNote doc.notes dn.noteId (fun x => { x with content := dn.content }),
        lastActivity := now })
      (fun x => rfl) d hf hm]
    rfl
  · intro store rk d dr now ht hf hm
    unfold Enhanced.noteRename
    rw [ht]
    simp only [Bool.not_true, Bool.false_eq_true, if_false]
    unfold lastActivityOf
    rw [findOne_updateOne store rk
      (fun doc => doc.notes.any (fun x => x.id == dr.noteId))
      (fun doc => { doc with
        notes := updateFirstNote doc.notes dr.noteId (fun x => { x with name := dr.name }),
        lastActivity := now })
      (fun x => rfl) d hf hm]
    rfl
  · intro store rk d nid now ht hf h2
    unfold Enhanced.noteDelete
    rw [ht]
    simp only [Bool.not_true, Bool.false_eq_true, if_false, hf]
    rw [if_neg (by omega)]
    unfold lastActivityOf
    dsimp only
    rw [findOne_updateOne_plain store rk
      (fun x => { x with notes := x.notes.filter (fun n => !(n.id == nid)), lastActivity := now })
      (fun x => rfl) d hf]
    rfl
  · intro store t now d hd hla hle
    unfold Enhanced.sweepExpired
    simp only [List.mem_filter]
    refine ⟨hd, ?_⟩
    simp [hla]
    omega

/-- C7 witness: a concrete `file-update` stamps `lastActivity` and the
updated document survives a sweep inside the retention window. -/
theorem c7_last_activity_witness :
    lastActivityOf (Enhanced.fileUpdate
        [{ roomId := some "r",
           files := [{ id := "a", name := "a.js", content := some "1", language := none }],
           notes := [], activeFileId := none, activeNoteId := none,
           createdAt := 0, lastActivity := 0 }]
        (some "r") { fileId := "a", content := some "2", language := none } 11).1 (some "r")
      = some 11
    ∧ { roomId := some "x", files := [], notes := [], activeFileId := none,
        activeNoteId := none, createdAt := 0, lastActivity := 11 : RoomDoc }
      ∈ (Enhanced.sweepExpired
          [{ roomId := some "x", files := [], notes := [], activeFileId := none,
             activeNoteId := none, createdAt := 0, lastActivity := 11 }] (11 + 86400000)).1 := by
  constructor
  · exact c7_last_activity.2.1
      [{ roomId := some "r",
         files := [{ id := "a", name := "a.js", content := some "1", language := none }],
         notes := [], activeFileId := none, activeNoteId := none,
         createdAt := 0, lastActivity := 0 }]
      (some "r")
      { roomId := some "r",
        files := [{ id := "a", name := "a.js", content := some "1", language := none }],
        notes := [], activeFileId := none, activeNoteId := none,
        createdAt := 0, lastActivity := 0 }
      { fileId := "a", content := some "2", language := none } 11
      (by decide) (by decide) (by decide)
  · exact c7_last_activity.2.2.2.2.2.2.2.2
      [{ roomId := some "x", files := [], notes := [], activeFileId := none,
         activeNoteId := none, createdAt := 0, lastActivity := 11 }]
      (11 + 86400000) 11
      { roomId := some "x", files := [], notes := [], activeFileId := none,
        activeNoteId := none, createdAt := 0, lastActivity := 11 }
      (by decide) (by decide) (by decide)

/-- C8 counterexample: a `file-update` that carries only a `language`
change (its `content` property absent) does not leave the file's
`content` unchanged — the handler's `$set` always includes
`files.$.content`, so the stored content `"hello"` is overwritten with
the message's absent content. -/
theorem c8_counterexample :
    ((([{ roomId := some "r",
          files := [{ id := "default", name := "main.js", content := some "hello",
                      language := some "javascript" }],
          notes := [], activeFileId := none, activeNoteId := none,
          createdAt := 0, lastActivity := 0 }] : Store).map
        (fun r => r.files.map (fun f => f.content)))
      = [[some "hello"]])
    ∧ ((Store.findOne
        (Enhanced.fileUpdate
          [{ roomId := some "r",
             files := [{ id := "default", name := "main.js", content := some "hello",
                         language := some "javascript" }],
             notes := [], activeFileId := none, activeNoteId := none,
             createdAt := 0, lastActivity := 0 }]
          (some "r") { fileId := "default", content := none, language := some "python" } 5).1
        (some "r")).map (fun r => r.files.map (fun f => f.content))
      = some [none]) := by
  decide

/-- C8 amended: a content-only update (no `language` on the message)
leaves every file's `language` unchanged; but the handler writes the
`content` field unconditionally, so after any `file-update` — including
one that was meant to change only `language` — the targeted file's
`content` equals the message's `content` value (absent becomes null).
Field isolation therefore holds only in the content-to-language
direction. -/
theorem c8_field_updates (store : Store) (rk : JStr) (d : RoomDoc)
    (dm : FileUpdateMsg) (now : Int)
    (ht : truthy rk = true) (hf : Store.findOne store rk = some d)
    (hm : d.files.any (fun f => f.id == dm.fileId) = true) :
    (truthy dm.language = false →
      (Store.findOne (Enhanced.fileUpdate store rk dm now).1 rk).map
          (fun r => r.files.map (fun f => f.language))
        = some (d.files.map (fun f => f.language)))
    ∧ ((Store.findOne (Enhanced.fileUpdate store rk dm now).1 rk).bind
          (fun r => findFile r.files dm.fileId)).map (fun f => f.content)
        = some dm.content := by
  constructor
  · intro hl
    unfold Enhanced.fileUpdate
    rw [ht]
    simp only [Bool.not_true, Bool.false_eq_true, if_false]
    rw [findOne_updateOne store rk
      (fun doc => doc.files.any (fun f => f.id == dm.fileId))
      (fun doc => { doc with
        files := updateFirstFile doc.files dm.fileId (fun f =>
          if truthy dm.language = true
          then { f with content := dm.content, language := dm.language }
          else { f with content := dm.content }),
        lastActivity := now })
      (fun x => rfl) d hf hm]
    show some ((updateFirstFile d.files dm.fileId (fun f =>
        if truthy dm.language = true
        then { f with content := dm.content, language := dm.language }
        else { f with content := dm.content })).map (fun f => f.language))
      = some (d.files.map (fun f => f.language))
    exact congrArg some (map_language_updateFirstFile d.files dm.fileId _
      (fun f => by simp [hl]))
  · unfold Enhanced.fileUpdate
    rw [ht]
    simp only [Bool.not_true, Bool.false_eq_true, if_false]
    rw [findOne_updateOne store rk
      (fun doc => doc.files.any (fun f => f.id == dm.fileId))
      (fun doc => { doc with
        files := updateFirstFile doc.files dm.fileId (fun f =>
          if truthy dm.language = true
          then { f with content := dm.content, language := dm.language }
          else { f with content := dm.content }),
        lastActivity := now })
      (fun x => rfl) d hf hm]
    show (findFile (updateFirstFile d.files dm.fileId (fun f =>
        if truthy dm.language = true
        then { f with content := dm.content, language := dm.language }
        else { f with content := dm.content })) dm.fileId).map (fun f => f.content)
      = some dm.content
    rw [findFileId_updateFirstFile d.files dm.fileId
      (fun f =>
        if truthy dm.language = true
        then { f with content := dm.content, language := dm.language }
        else { f with content := dm.content })
      (fun f => by by_cases hl : truthy dm.language = true <;> simp [hl])]
    have hsome := findFile_isSome_of_any hm
    rcases hff : findFile d.files dm.fileId with _ | f0
    · rw [hff] at hsome
      simp at hsome
    · by_cases hl : truthy dm.language = true <;> simp [hl]

/-- C8 witness: the amended behaviour at concrete inputs — a
content-only update preserves `language`, and a language-carrying
update sets `content` to the message's content. -/
theorem c8_field_updates_witness :
    ((Store.findOne (Enhanced.fileUpdate
        [{ roomId := some "r",
           files := [{ id := "a", name := "a.js", content := some "old",
                       language := some "javascript" }],
           notes := [], activeFileId := none, activeNoteId := none,
           createdAt := 0, lastActivity := 0 }]
        (some "r") { fileId := "a", content := some "new", language := none } 5).1
        (some "r")).map (fun r => r.files.map (fun f => f.language))
      = some [some "javascript"])
    ∧ (((Store.findOne (Enhanced.fileUpdate
        [{ roomId := some "r",
           files := [{ id := "a", name := "a.js", content := some "old",
                       language := some "javascript" }],
           notes := [], activeFileId := none, activeNoteId := none,
           createdAt := 0, lastActivity := 0 }]
        (some "r") { fileId := "a", content := none, language := some "python" } 5).1
        (some "r")).bind (fun r => findFile r.files "a")).map (fun f => f.content)
      = some none) := by
  constructor
  · exact (c8_field_updates
      [{ roomId := some "r",
         files := [{ id := "a", name := "a.js", content := some "old",
                     language := some "javascript" }],
         notes := [], activeFileId := none, activeNoteId := none,
         createdAt := 0, lastActivity := 0 }]
      (some "r")
      { roomId := some "r",
        files := [{ id := "a", name := "a.js", content := some "old",
                    language := some "javascript" }],
        notes := [], activeFileId := none, activeNoteId := none,
        createdAt := 0, lastActivity := 0 }
      { fileId := "a", content := some "new", language := none } 5
      (by decide) (by decide) (by decide)).1 (by decide)
  · exact (c8_field_updates
      [{ roomId := some "r",
         files := [{ id := "a", name := "a.js", content := some "old",
                     language := some "javascript" }],
         notes := [], activeFileId := none, activeNoteId := none,
         createdAt := 0, lastActivity := 0 }]
      (some "r")
      { roomId := some "r",
        files := [{ id := "a", name := "a.js", content := some "old",
                    language := some "javascript" }],
        notes := [], activeFileId := none, activeNoteId := none,
        createdAt := 0, lastActivity := 0 }
      { fileId := "a", content := none, language := some "python" } 5
      (by decide) (by decide) (by decide)).2

/-- C9: a `socket.to(room)` broadcast is never delivered to its sender
and reaches exactly the other members of the targeted room, and every
mutate/chat broadcast emitted by a joined connection is of that
sender-excluding form. -/
theorem c9_no_echo :
    (∀ (reg : Registry) (sender : String) (rk : JStr) (ev : String) (p : Payload),
        ¬ sender ∈ deliverTo reg sender (Action.toRoomOthers rk ev p)
        ∧ ∀ m, m ∈ deliverTo reg sender (Action.toRoomOthers rk ev p) →
            m ∈ membersOf reg rk ∧ m ≠ sender)
  ∧ (∀ (store : Store) (rk : JStr) (f : CodeShare.File) (now : Int), truthy rk = true →
      (Enhanced.fileCreate store rk f now).2
        = [Action.toRoomOthers rk "file-create" (Payload.fileData f)])
  ∧ (∀ (store : Store) (rk : JStr) (dm : FileUpdateMsg) (now : Int), truthy rk = true →
      (Enhanced.fileUpdate store rk dm now).2
        = [Action.toRoomOthers rk "file-update" (Payload.updData dm)])
  ∧ (∀ (store : Store) (rk : JStr) (dr : FileRenameMsg) (now : Int), truthy rk = true →
      (Enhanced.fileRename store rk dr now).2
        = [Action.toRoomOthers rk "file-rename" (Payload.renData dr)])
  ∧ (∀ (store : Store) (rk : JStr) (d : RoomDoc) (fid : String) (now : Int),
      truthy rk = true → Store.findOne store rk = some d → 2 ≤ d.files.length →
      (Enhanced.fileDelete store rk fid now).2
        = [Action.toRoomOthers rk "file-delete" (Payload.str fid)])
  ∧ (∀ (store : Store) (rk : JStr) (n : Note) (now : Int), truthy rk = true →
      (Enhanced.noteCreate store rk n now).2
        = [Action.toRoomOthers rk "note-create" (Payload.noteData n)])
  ∧ (∀ (store : Store) (rk : JStr) (dn : NoteUpdateMsg) (now : Int), truthy rk = true →
      (Enhanced.noteUpdate store rk dn now).2
        = [Action.toRoomOthers rk "note-update" (Payload.noteUpdData dn)])
  ∧ (∀ (store : Store) (rk : JStr) (dr : NoteRenameMsg) (now : Int), truthy rk = true →
      (Enhanced.noteRename store rk dr now).2
        = [Action.toRoomOthers rk "note-rename" (Payload.noteRenData dr)])
  ∧ (∀ (store : Store) (rk : JStr) (d : RoomDoc) (nid : String) (now : Int),
      truthy rk = true → Store.findOne store rk = some d → 2 ≤ d.notes.length →
      (Enhanced.noteDelete store rk nid now).2
        = [Action.toRoomOthers rk "note-delete" (Payload.str nid)])
  ∧ (∀ (rk : JStr) (p : Payload), truthy rk = true →
      Enhanced.chatMessage rk p = [Action.toRoomOthers rk "chat-message" p]) := by
  refine ⟨?_, ?_, ?_, ?_, ?_, ?_, ?_, ?_, ?_, ?_⟩
  · intro reg sender rk ev p
    constructor
    · intro hmem
      simp [deliverTo, List.mem_filter] at hmem
    · intro m hmem
      simp [deliverTo, List.mem_filter] at hmem
      exact ⟨hmem.1, hmem.2⟩
  · intro store rk f now ht
    unfold Enhanced.fileCreate
    rw [ht]
    rfl
  · intro store rk dm now ht
    unfold Enhanced.fileUpdate
    rw [ht]
    rfl
  · intro store rk dr now ht
    unfold Enhanced.fileRename
    rw [ht]
    rfl
  · intro store rk d fid now ht hf h2
    unfold Enhanced.fileDelete
    rw [ht]
    simp only [Bool.not_true, Bool.false_eq_true, if_false, hf]
    rw [if_neg (by omega)]
  · intro store rk n now ht
    unfold Enhanced.noteCreate
    rw [ht]
    rfl
  · intro store rk dn now ht
    unfold Enhanced.noteUpdate
    rw [ht]
    rfl
  · intro store rk dr now ht
    unfold Enhanced.noteRename
    rw [ht]
    rfl
  · intro store rk d nid now ht hf h2
    unfold Enhanced.noteDelete
    rw [ht]
    simp only [Bool.not_true, Bool.false_eq_true, if_false, hf]
    rw [if_neg (by omega)]
  · intro rk p ht
    unfold Enhanced.chatMessage
    rw [ht]
    rfl

/-- C9 witness: the sender `s1` is excluded from a concrete broadcast
that reaches the other member `s2`, and a joined `chat-message` emits
exactly the sender-excluding broadcast. -/
theorem c9_no_echo_witness :
    (¬ "s1" ∈ deliverTo [(some "r", ["s1", "s2"])] "s1"
        (Action.toRoomOthers (some "r") "file-update"
          (Payload.updData { fileId := "a", content := some "x", language := none })))
    ∧ Enhanced.chatMessage (some "r") (Payload.str "hi")
        = [Action.toRoomOthers (some "r") "chat-message" (Payload.str "hi")] := by
  exact ⟨(c9_no_echo.1 [(some "r", ["s1", "s2"])] "s1" (some "r") "file-update"
            (Payload.updData { fileId := "a", content := some "x", language := none })).1,
         c9_no_echo.2.2.2.2.2.2.2.2.2 (some "r") (Payload.str "hi") (by decide)⟩

/-- C10: disconnect of a joined connection leaves the persisted store
untouched in every case; when it was the room's only member the
registry entry is removed entirely and only the (undeliverable)
`call-ended` broadcast is emitted; when it was one of two members the
other stays registered and receives the `call-ended` notice and a
`users-update` listing exactly the one remaining member. -/
theorem c10_disconnect :
    (∀ (reg : Registry) (store : Store) (rk : JStr) (s : String),
        truthy rk = true → membersOf reg rk = [s] →
        Registry.get (Enhanced.disconnect reg store rk s).1 rk = none
        ∧ (Enhanced.disconnect reg store rk s).2.1 = store
        ∧ (Enhanced.disconnect reg store rk s).2.2
            = [Action.toRoomOthers rk "call-ended" Payload.empty])
  ∧ (∀ (reg : Registry) (store : Store) (rk : JStr) (s t : String),
        truthy rk = true → s ≠ t → membersOf reg rk = [s, t] →
        membersOf (Enhanced.disconnect reg store rk s).1 rk = [t]
        ∧ (Enhanced.disconnect reg store rk s).2.1 = store
        ∧ (Enhanced.disconnect reg store rk s).2.2
            = [Action.toRoomOthers rk "call-ended" Payload.empty,
               Action.toRoomAll rk "users-update" (Payload.ids [t])]
        ∧ deliverTo (Enhanced.disconnect reg store rk s).1 s
            (Action.toRoomOthers rk "call-ended" Payload.empty) = [t]
        ∧ deliverTo (Enhanced.disconnect reg store rk s).1 s
            (Action.toRoomAll rk "users-update" (Payload.ids [t])) = [t]) := by
  constructor
  · intro reg store rk s ht hm
    have hk := hasKey_of_members_cons hm
    unfold Enhanced.disconnect
    rw [ht, hk]
    simp only [Bool.and_self, if_true, hm]
    have hdel : setDelete [s] s = [] := by
      simp [setDelete]
    rw [hdel]
    simp only [List.length_nil, if_pos rfl]
    exact ⟨get_del_self _ rk, rfl, rfl⟩
  · intro reg store rk s t ht hst hm
    have hk := hasKey_of_members_cons hm
    unfold Enhanced.disconnect
    rw [ht, hk]
    simp only [Bool.and_self, if_true, hm]
    have hdel : setDelete [s, t] s = [t] := by
      simp [setDelete, bne_iff_ne, Ne.symm hst]
    rw [hdel]
    simp only [List.length_cons, List.length_nil]
    rw [if_neg (by omega)]
    have hmem : membersOf (Registry.set reg rk [t]) rk = [t] := membersOf_set_self reg rk [t]
    refine ⟨hmem, rfl, rfl, ?_, ?_⟩
    · show (membersOf (Registry.set reg rk [t]) rk).filter (fun m => m != s) = [t]
      rw [hmem]
      simp [bne_iff_ne, Ne.symm hst]
    · exact hmem

/-- C10 witness: the sole member's disconnect clears the registry entry
of room `r`, and one-of-two disconnect leaves the other member with a
one-element `users-update` and the `call-ended` notice, store untouched
in both cases. -/
theorem c10_disconnect_witness :
    (Registry.get (Enhanced.disconnect [(some "r", ["s1"])] [] (some "r") "s1").1 (some "r") = none)
    ∧ (Enhanced.disconnect [(some "r", ["s1"])] [] (some "r") "s1").2.1 = ([] : Store)
    ∧ membersOf (Enhanced.disconnect [(some "r", ["s1", "s2"])] [] (some "r") "s1").1 (some "r") = ["s2"]
    ∧ deliverTo (Enhanced.disconnect [(some "r", ["s1", "s2"])] [] (some "r") "s1").1 "s1"
        (Action.toRoomOthers (some "r") "call-ended" Payload.empty) = ["s2"]
    ∧ (Enhanced.disconnect [(some "r", ["s1", "s2"])] [] (some "r") "s1").2.2
        = [Action.toRoomOthers (some "r") "call-ended" Payload.empty,
           Action.toRoomAll (some "r") "users-update" (Payload.ids ["s2"])] := by
  have h1 := c10_disconnect.1 [(some "r", ["s1"])] [] (some "r") "s1" (by decide) (by decide)
  have h2 := c10_disconnect.2 [(some "r", ["s1", "s2"])] [] (some "r") "s1" "s2"
    (by decide) (by decide) (by decide)
  exact ⟨h1.1, h1.2.1, h2.1, h2.2.2.2.1, h2.2.2.1⟩

end CodeShare
